import Mathlib

/-!
Shallow embedding of the i18n loader of `src/script.js` (the `i18n` object and
its helpers).  JavaScript objects holding parsed JSON are modelled as
association lists of `String × JVal` where a later write shadows earlier
entries (`mset` conses in front, `mget` finds the first binding) — this gives
exactly the lookup semantics of JS property access after assignments and
object spread.  `Map` instances (`cache`, `fallbackChain`, `loadingPromises`)
and `localStorage` are modelled the same way; `JSON.stringify`/`JSON.parse`
round-trip is the identity on the finite well-formed values stored here, so
the durable store holds the parsed objects directly.
-/

/-- A JSON value as it occurs in the translation files of this repository:
a string, a number (epoch-milliseconds timestamps and TTLs), or an array of
strings (the `noTexts` key). -/
inductive JVal where
  | s (v : String)
  | n (v : Nat)
  | arr (vs : List String)
deriving DecidableEq, Repr

/-- A parsed JSON object / JS object: later bindings shadow earlier ones. -/
abbrev JObj := List (String × JVal)

/-- Property / Map lookup: the first (most recent) binding wins. -/
def mget {α : Type} (m : List (String × α)) (k : String) : Option α :=
  (m.find? (fun p => p.1 == k)).map (·.2)

/-- Property assignment / `Map.set` / object-spread overwrite. -/
def mset {α : Type} (m : List (String × α)) (k : String) (v : α) :
    List (String × α) :=
  (k, v) :: m

theorem mget_mset_self {α : Type} (m : List (String × α)) (k : String) (v : α) :
    mget (mset m k v) k = some v := by
  simp [mget, mset, List.find?]

theorem mget_mset_ne {α : Type} (m : List (String × α)) (k k' : String) (v : α)
    (h : k' ≠ k) : mget (mset m k v) k' = mget m k' := by
  have hb : (k == k') = false := by
    simpa using (Ne.symm h)
  simp [mget, mset, List.find?, hb]

/-! ### Fallback resolver (`setFallbackChain`, `findAvailableLanguage`) -/

/-- The base of a locale code, `langCode.split('-')[0]` in the source:
the longest prefix of the code that contains no `'-'`. -/
def baseOf (l : String) : String :=
  ⟨l.data.takeWhile (fun c => c != '-')⟩

/-- The fallback chain installed by `setFallbackChain` (script.js 68-73). -/
def fallbackChainInit : List (String × List String) :=
  [("zh-CN", ["zh-CN", "zh"]),
   ("zh-TW", ["zh-TW", "zh"]),
   ("en-US", ["en-US", "en"]),
   ("en-GB", ["en-GB", "en"])]

/-- The process default locale, `i18n.defaultLang`. -/
def defaultLang : String := "en"

/-- `findAvailableLanguage` (script.js 76-91): returns the requested code when
it has a chain entry, the base when the base has one, else the code itself. -/
def findAvailableLanguage (chain : List (String × List String))
    (langCode : String) : String :=
  let baseLang := baseOf langCode
  if (mget chain langCode).isSome then langCode
  else if (mget chain baseLang).isSome then baseLang
  else langCode

/-- The resolver's output viewed as a candidate sequence: the source computes
a single locale, so the sequence it produces has exactly one element. -/
def resolverCandidates (chain : List (String × List String))
    (langCode : String) : List String :=
  [findAvailableLanguage chain langCode]

theorem baseOf_no_dash {l : String} {c : Char} (h : c ∈ (baseOf l).data) :
    c ≠ '-' := by
  have := List.mem_takeWhile_imp h
  simpa using this

/-! ### Two-tier cache (`loadFromLocalStorage`, `saveToLocalStorage`) -/

/-- The mutable fields of the `i18n` object that the cache layer touches:
the active translations, the in-memory `cache` Map, and `localStorage`. -/
structure I18nState where
  translations : JObj
  cache : List (String × JObj)
  localStore : List (String × JObj)
deriving DecidableEq, Repr

/-- `loadFromLocalStorage` (script.js 175-190): reads `i18n_<lang>`, and on a
hit installs the parsed data as the active translations and memory-cache
entry and reports `true`; otherwise reports `false`.  Note that the function
consumes no clock and never reads the stored `__timestamp`/`__ttl` fields. -/
def loadFromLocalStorage (st : I18nState) (lang : String) :
    I18nState × Bool :=
  match mget st.localStore ("i18n_" ++ lang) with
  | some parsedData =>
      ({ st with translations := parsedData,
                 cache := mset st.cache lang parsedData }, true)
  | none => (st, false)

/-- The fixed 30-day TTL stamped by `saveToLocalStorage` (script.js 200). -/
def ttl30Days : Nat := 30 * 24 * 60 * 60 * 1000

/-- `saveToLocalStorage` (script.js 193-206): stores under `i18n_<lang>` the
spread `{...translations, __timestamp: now, __ttl: 30 days}`. -/
def saveToLocalStorage (st : I18nState) (lang : String) (now : Nat) :
    I18nState :=
  let cacheData :=
    mset (mset st.translations "__timestamp" (JVal.n now)) "__ttl"
      (JVal.n ttl30Days)
  { st with localStore := mset st.localStore ("i18n_" ++ lang) cacheData }

/-! ### `loadTranslations` (script.js 121-172)

Modelled over an abstract fetch outcome `fetchRes : String → Option JObj`
(`some r` = HTTP 2xx and the body parsed to `r`; `none` = network, HTTP or
parse failure).  The function first consults the memory cache, then fetches,
and on fetch failure falls back once to the base language (memory cache, then
a recursive load).  The recursion depth is at most one because the base of a
base-free code is itself, so fuel 2 is exact. -/

def loadTranslationsAux (fetchRes : String → Option JObj) :
    Nat → I18nState → String → I18nState × Bool
  | 0, st, _ => (st, false)
  | d + 1, st, lang =>
    match mget st.cache lang with
    | some cached => ({ st with translations := cached }, true)
    | none =>
      match fetchRes lang with
      | some r =>
          ({ st with translations := r, cache := mset st.cache lang r }, true)
      | none =>
          let baseLang := baseOf lang
          if baseLang = lang then (st, false)
          else
            match mget st.cache baseLang with
            | some cached => ({ st with translations := cached }, true)
            | none => loadTranslationsAux fetchRes d st baseLang

def loadTranslations (fetchRes : String → Option JObj) (st : I18nState)
    (lang : String) : I18nState × Bool :=
  loadTranslationsAux fetchRes 2 st lang

/-! ### Minimal fallback and the init load phase (script.js 29-55, 336-354) -/

/-- `useMinimalFallbackTranslations` installs this hardcoded object
(script.js 338-353). -/
def minimalFallbackTranslations : JObj :=
  [("pageTitle", JVal.s "Will you be my sweetheart?"),
   ("greeting", JVal.s "What should I call you?"),
   ("confirmButton", JVal.s "Confirm"),
   ("questionTemplate", JVal.s "{username}? Will you be my love?"),
   ("loveMessage", JVal.s "I love you! {username}"),
   ("yesButton", JVal.s "Yes!"),
   ("noButton", JVal.s "No..."),
   ("noTexts", JVal.arr ["Wait, really?", "My heart is cracking...",
      "Please think again!", "I\x27ll cry a river...", "Final answer?"])]

/-- The load phase of `init` (script.js 29-55): try the durable cache for the
current language; on a miss fetch it (timed load), saving on success; on
failure fetch the default language, saving on success; when that fails too,
install the hardcoded minimal translations.  The timeout layer and the
background refresh / DOM application are orthogonal to the state computed
here; a load outcome (success or any failure, timeout included) is the
outcome of `loadTranslations` under the given fetch results. -/
def initLoadPhase (fetchRes : String → Option JObj) (st : I18nState)
    (currentLang : String) (now : Nat) : I18nState :=
  match loadFromLocalStorage st currentLang with
  | (st1, true) => st1
  | (st1, false) =>
    match loadTranslations fetchRes st1 currentLang with
    | (st2, true) => saveToLocalStorage st2 currentLang now
    | (st2, false) =>
      match loadTranslations fetchRes st2 defaultLang with
      | (st3, true) => saveToLocalStorage st3 defaultLang now
      | (st3, false) =>
          { st3 with translations := minimalFallbackTranslations }

/-! ### The timed load (`loadTranslationsWithTimeout`, script.js 94-118)

`Promise.race([loadTranslations(lang), timeoutPromise])` decides what the
awaiting caller observes: a memory-cache hit resolves synchronously, before
any timer; otherwise the load settles `netDelay` ms after the call and the
timer fires at `timeoutMs` ms, and the earlier one wins the race.  The race
does NOT cancel the loser: the `loadTranslations` continuation keeps running
and applies its side effects (assigning `this.translations`, writing the
memory cache) when the network response arrives, regardless of the race
outcome.  `timedLoadObserved` is the caller-visible outcome;
`timedLoadFinalState` is the state once every started operation settled. -/

def timedLoadObserved (fetchRes : String → Option JObj) (st : I18nState)
    (lang : String) (netDelay timeoutMs : Nat) : Bool :=
  if (mget st.cache lang).isSome then true
  else if netDelay < timeoutMs then (loadTranslations fetchRes st lang).2
  else false

def timedLoadFinalState (fetchRes : String → Option JObj) (st : I18nState)
    (lang : String) : I18nState :=
  (loadTranslations fetchRes st lang).1

/-! ### The deduplication protocol of `loadTranslationsWithTimeout`

The `loadingPromises` Map protocol (script.js 94-118): a request for `lang`
that finds an in-flight entry returns that entry's operation and starts
nothing; a request that finds none starts one fetch operation and records it;
when the recorded operation settles (success or failure) the single `finally`
of the call that created it removes the record.  Events abstract the
suspension points of this protocol. -/

structure CoordState where
  pending : List (String × Nat)
  nextId : Nat
  fetchesIssued : List (String × Nat)
deriving DecidableEq, Repr

inductive CoordEvent where
  | request (lang : String)
  | settle (lang : String)
deriving DecidableEq, Repr

def coordStep (s : CoordState) (e : CoordEvent) : CoordState :=
  match e with
  | .request lang =>
    if (s.pending.find? (fun p => p.1 == lang)).isSome then s
    else
      { pending := (lang, s.nextId) :: s.pending,
        nextId := s.nextId + 1,
        fetchesIssued := (lang, s.nextId) :: s.fetchesIssued }
  | .settle lang =>
      { s with pending := s.pending.filter (fun p => !(p.1 == lang)) }

def coordInit : CoordState := ⟨[], 0, []⟩

def coordRun (s : CoordState) (es : List CoordEvent) : CoordState :=
  es.foldl coordStep s

/-- Number of in-flight fetch handles recorded for `lang`. -/
def pendingCount (s : CoordState) (lang : String) : Nat :=
  (s.pending.filter (fun p => p.1 == lang)).length

/-- Number of fetch operations ever issued for `lang`. -/
def fetchCount (s : CoordState) (lang : String) : Nat :=
  (s.fetchesIssued.filter (fun p => p.1 == lang)).length

/-! ### `switchLanguage` (script.js 303-327) -/

/-- Observable actions of `switchLanguage`, in program order. -/
inductive SwAction where
  | setCurrentLang (l : String)
  | setUserPref (l : String)
  | indicator (b : Bool)
  | loadAttempt (l : String)
  | save (l : String)
  | applyTranslations
deriving DecidableEq, Repr

/-- The `i18n` fields `switchLanguage` touches, beyond `I18nState`. -/
structure SwitchState where
  currentLang : String
  initDone : Bool
  userLangPreference : Option String
  st : I18nState
deriving DecidableEq, Repr

/-- `switchLanguage` (script.js 303-327): no-op when the language is already
current and init completed; otherwise set `currentLang` and the persisted
preference, turn the loading indicator on, attempt the timed load, and — in a
`finally` — turn the indicator off whether the load succeeded or failed.
Returns the final state, whether the call succeeds (a failed load rejects the
caller's promise after the `finally`), and the action trace. -/
def switchLanguage (fetchRes : String → Option JObj) (s : SwitchState)
    (lang : String) (now : Nat) : SwitchState × Bool × List SwAction :=
  if lang = s.currentLang ∧ s.initDone then (s, true, [])
  else
    let s1 := { s with currentLang := lang, userLangPreference := some lang }
    match loadTranslations fetchRes s1.st lang with
    | (st2, true) =>
        ({ s1 with st := saveToLocalStorage st2 lang now }, true,
         [.setCurrentLang lang, .setUserPref lang, .indicator true,
          .loadAttempt lang, .save lang, .applyTranslations, .indicator false])
    | (st2, false) =>
        ({ s1 with st := st2 }, false,
         [.setCurrentLang lang, .setUserPref lang, .indicator true,
          .loadAttempt lang, .indicator false])

/-! ### Template substitution (`template`, script.js 357-380)

The source runs `str.replace` with the global pattern matching an opening
brace, one or more characters that are neither brace, and a closing brace,
substituting `data[key] || ''` for each match.  The leftmost-match semantics
of that scan: a placeholder starts at the last unconsumed opening brace
before its braceless body.  `scanTemplate` implements exactly this as a
left-to-right pass — `none` means not inside a potential placeholder, and
`some buf` holds the (reversed) body read since the last opening brace;
an opening brace restarts the body, an unmatched opening brace or an empty
body is emitted literally.  The `templateCache` memoisation of the source is
semantically transparent and not modelled. -/

/-- The substitution for one matched placeholder body: `data[key] || ''`
(a missing key — and an empty-string value — substitutes as the empty
string). -/
def subst (data : List (String × String)) (key : String) : String :=
  (mget data key).getD ""

def scanTemplate (f : String → String) :
    List Char → Option (List Char) → List Char
  | [], none => []
  | [], some buf => '{' :: buf.reverse
  | c :: rest, none =>
      if c = '{' then scanTemplate f rest (some [])
      else c :: scanTemplate f rest none
  | c :: rest, some buf =>
      if c = '}' then
        if buf = [] then '{' :: '}' :: scanTemplate f rest none
        else (f ⟨buf.reverse⟩).data ++ scanTemplate f rest none
      else if c = '{' then '{' :: (buf.reverse ++ scanTemplate f rest (some []))
      else scanTemplate f rest (some (c :: buf))

/-- `template` (script.js 357-380). -/
def template (str : String) (data : List (String × String)) : String :=
  ⟨scanTemplate (subst data) str.data none⟩

/-! ### The lookup facade (`t`, script.js 383-392) -/

/-- What a call to `t` produces: a string, a non-string value returned
unchanged (an array such as `noTexts`, or a number), or a thrown
`TypeError` — `template` calls `str.replace`, which only exists on
strings. -/
inductive TResult where
  | str (v : String)
  | raw (v : JVal)
  | err
deriving DecidableEq, Repr

/-- JS falsiness of the values occurring here: the empty string and the
number 0 are falsy; arrays (even empty ones) are truthy. -/
def falsy : JVal → Bool
  | .s v => v == ""
  | .n v => v == 0
  | .arr _ => false

/-- `t` (script.js 383-392): a missing key — and any falsy stored value —
returns the key itself; with a non-empty substitution map the stored value is
passed to `template` (throwing a `TypeError` when it is not a string);
otherwise the stored value is returned unchanged. -/
def t (translations : JObj) (key : String)
    (data : List (String × String)) : TResult :=
  match mget translations key with
  | none => .str key
  | some v =>
    if falsy v then .str key
    else if data.isEmpty then
      match v with
      | .s str => .str str
      | other => .raw other
    else
      match v with
      | .s str => .str (template str data)
      | _ => .err


/-! ## Claims -/

/-- A sample ResourceSet used by concrete counterexamples and witnesses. -/
def demoR : JObj := [("greeting", JVal.s "hi")]

/-- A sample state whose active translations are `demoR`, with empty memory
cache and empty durable store. -/
def demoState : I18nState := ⟨demoR, [], []⟩

/-- C1: the claim says a durable entry of age `ttl + 1` is treated as a miss
by `loadFromLocalStorage`.  The code stamps `__timestamp`/`__ttl` on save but
never reads them back: `loadFromLocalStorage` takes no clock at all, and for
every stored-at time it reports a hit and installs the stored ResourceSet —
in particular for an entry written at time 0 and read any number of
milliseconds later, age `ttl + 1` included. -/
theorem loadFromLocalStorage_ignores_ttl :
    ∀ storedAt : Nat,
      (loadFromLocalStorage (saveToLocalStorage demoState "en" storedAt)
          "en").2 = true ∧
      mget (loadFromLocalStorage (saveToLocalStorage demoState "en" storedAt)
          "en").1.translations "greeting" = some (JVal.s "hi") := by
  intro storedAt
  constructor
  · simp [loadFromLocalStorage, saveToLocalStorage, mget_mset_self]
  · simp [loadFromLocalStorage, saveToLocalStorage, mget_mset_self,
      mget_mset_ne, mget, mset, demoState, demoR, List.find?]

/-- C4 counterexample: `put(L, R)` followed by `get(L)` does not return a
ResourceSet deep-equal to `R`.  With `R = demoR` (which has no reserved
fields), the round-trip result answers `some (n 0)` at key `__timestamp`
where `R` answers `none`, so the two disagree as key-to-value mappings. -/
theorem roundtrip_not_deep_equal :
    (loadFromLocalStorage (saveToLocalStorage demoState "en" 0) "en").2
        = true ∧
    mget (loadFromLocalStorage (saveToLocalStorage demoState "en" 0)
        "en").1.translations "__timestamp" = some (JVal.n 0) ∧
    mget demoR "__timestamp" = none ∧
    ¬ (∀ k, mget (loadFromLocalStorage (saveToLocalStorage demoState "en" 0)
        "en").1.translations k = mget demoR k) := by
  refine ⟨by decide, by decide, by decide, fun h => ?_⟩
  have := h "__timestamp"
  simp [loadFromLocalStorage, saveToLocalStorage, mget, mset, demoState,
    demoR, List.find?] at this

/-- C4 amended: the round-trip `put(L, R); get(L)` is a hit whose ResourceSet
agrees with `R` at every key other than the reserved metadata fields
`__timestamp` and `__ttl`, which the load does not strip (so the result is
deep-equal to `R` only away from those two keys). -/
theorem roundtrip_preserves_translations (st : I18nState) (lang : String)
    (now : Nat) (k : String) (h1 : k ≠ "__timestamp") (h2 : k ≠ "__ttl") :
    (loadFromLocalStorage (saveToLocalStorage st lang now) lang).2 = true ∧
    mget (loadFromLocalStorage (saveToLocalStorage st lang now)
        lang).1.translations k = mget st.translations k := by
  unfold loadFromLocalStorage saveToLocalStorage
  simp only [mget_mset_self]
  exact ⟨trivial, by rw [mget_mset_ne _ _ _ _ h2, mget_mset_ne _ _ _ _ h1]⟩

/-- C4 witness: the amended round-trip theorem at the concrete state
`demoState`, locale `"en"`, time 0 and key `"greeting"`. -/
theorem roundtrip_preserves_translations_witness :
    (loadFromLocalStorage (saveToLocalStorage demoState "en" 0) "en").2
        = true ∧
    mget (loadFromLocalStorage (saveToLocalStorage demoState "en" 0)
        "en").1.translations "greeting" = mget demoState.translations
        "greeting" :=
  roundtrip_preserves_translations demoState "en" 0 "greeting"
    (by decide) (by decide)

/-- No base of any locale is a key of the installed fallback chain: every key
of `fallbackChainInit` contains a dash, while a base never does. -/
theorem chain_no_base_key (L : String) :
    mget fallbackChainInit (baseOf L) = none := by
  have hb : ∀ key : String, '-' ∈ key.data → (key == baseOf L) = false := by
    intro key hk
    refine beq_eq_false_iff_ne.mpr fun he => ?_
    exact baseOf_no_dash (he ▸ hk) rfl
  have h1 := hb "zh-CN" (by decide)
  have h2 := hb "zh-TW" (by decide)
  have h3 := hb "en-US" (by decide)
  have h4 := hb "en-GB" (by decide)
  simp [mget, fallbackChainInit, List.find?, h1, h2, h3, h4]

/-- C3 counterexample: for the locale `"fr-CA"`, which has no explicit chain
entry, the resolver's candidate computation produces the one-element sequence
`["fr-CA"]` — it does not contain the base `"fr"` at all and does not end
with the default locale `"en"`, contrary to the claim. -/
theorem resolverCandidates_fr_CA :
    resolverCandidates fallbackChainInit "fr-CA" = ["fr-CA"] ∧
    "fr" ∉ resolverCandidates fallbackChainInit "fr-CA" ∧
    (resolverCandidates fallbackChainInit "fr-CA").getLast? ≠
      some defaultLang := by
  decide

/-- C3 amended: for every locale `L` with no explicit fallback-chain entry,
`findAvailableLanguage` returns `L` itself (the base-language branch is dead:
no base is ever a chain key, since every installed key contains a dash), so
the candidate sequence the resolver produces is the single element `[L]` —
not a sequence through the base and the default locale. -/
theorem resolver_single_candidate (L : String)
    (h : mget fallbackChainInit L = none) :
    findAvailableLanguage fallbackChainInit L = L ∧
    resolverCandidates fallbackChainInit L = [L] := by
  have hb := chain_no_base_key L
  refine ⟨?_, ?_⟩ <;> simp [resolverCandidates, findAvailableLanguage, h, hb]

/-- C3 witness: the amended resolver theorem at the concrete locale
`"fr-CA"`. -/
theorem resolver_single_candidate_witness :
    findAvailableLanguage fallbackChainInit "fr-CA" = "fr-CA" ∧
    resolverCandidates fallbackChainInit "fr-CA" = ["fr-CA"] :=
  resolver_single_candidate "fr-CA" (by decide)

theorem baseOf_idem (l : String) : baseOf (baseOf l) = baseOf l :=
  String.ext (List.takeWhile_idem)

/-- With an empty memory cache and every fetch failing, `loadTranslations`
fails and leaves the state unchanged: the direct fetch fails, and the base
fallback (when the locale has a base different from itself) finds no cache
entry and its own fetch fails too. -/
theorem loadTranslations_all_fail (st : I18nState) (lang : String)
    (hc : st.cache = []) :
    loadTranslations (fun _ => none) st lang = (st, false) := by
  obtain ⟨tr, cache, ls⟩ := st
  replace hc : cache = [] := hc
  subst hc
  show loadTranslationsAux (fun _ => none) 2 ⟨tr, [], ls⟩ lang = _
  unfold loadTranslationsAux
  simp only [mget, List.find?_nil, Option.map_none']
  split
  · rfl
  · unfold loadTranslationsAux
    simp [mget, List.find?_nil, Option.map_none', baseOf_idem]

/-- C6: when every candidate fetch fails during initialization — the current
language, its base, the default language — and nothing is cached, the init
load phase installs the embedded minimal ResourceSet as the active
translations, and that set contains the keys `pageTitle`, `greeting`,
`confirmButton` and `questionTemplate`. -/
theorem init_total_failure_minimal (st : I18nState) (currentLang : String)
    (now : Nat)
    (h1 : mget st.localStore ("i18n_" ++ currentLang) = none)
    (h2 : st.cache = []) :
    (initLoadPhase (fun _ => none) st currentLang now).translations
        = minimalFallbackTranslations ∧
    (mget minimalFallbackTranslations "pageTitle").isSome = true ∧
    (mget minimalFallbackTranslations "greeting").isSome = true ∧
    (mget minimalFallbackTranslations "confirmButton").isSome = true ∧
    (mget minimalFallbackTranslations "questionTemplate").isSome = true := by
  refine ⟨?_, by decide, by decide, by decide, by decide⟩
  have hl1 := loadTranslations_all_fail st currentLang h2
  have hl2 := loadTranslations_all_fail st defaultLang h2
  unfold initLoadPhase
  simp only [loadFromLocalStorage, h1, hl1, hl2]

/-- C6 witness: total failure from the empty state with current language
`"fr-CA"` installs the minimal set with the four critical keys present. -/
theorem init_total_failure_minimal_witness :
    (initLoadPhase (fun _ => none) ⟨[], [], []⟩ "fr-CA" 0).translations
        = minimalFallbackTranslations ∧
    (mget minimalFallbackTranslations "pageTitle").isSome = true ∧
    (mget minimalFallbackTranslations "greeting").isSome = true ∧
    (mget minimalFallbackTranslations "confirmButton").isSome = true ∧
    (mget minimalFallbackTranslations "questionTemplate").isSome = true :=
  init_total_failure_minimal ⟨[], [], []⟩ "fr-CA" 0 rfl rfl

/-- A fetch environment where only `"fr"` resolves, to `demoFr`. -/
def demoFr : JObj := [("greeting", JVal.s "bonjour")]

def frFetch : String → Option JObj :=
  fun l => if l == "fr" then some demoFr else none

/-- C2 counterexample: a fetch of `"fr"` whose network response arrives at
5000 ms against a 3000 ms timeout.  The awaiting caller observes the timeout
rejection, yet the late response is not discarded: when it arrives, the
still-running `loadTranslations` continuation writes the memory cache and
assigns the active translations — contrary to the claim that it causes no
cache write and no side effect. -/
theorem late_response_not_discarded :
    timedLoadObserved frFetch ⟨[], [], []⟩ "fr" 5000 3000 = false ∧
    mget (timedLoadFinalState frFetch ⟨[], [], []⟩ "fr").cache "fr"
        = some demoFr ∧
    (timedLoadFinalState frFetch ⟨[], [], []⟩ "fr").translations = demoFr := by
  decide

/-- C2 amended: when the timer settles before the network operation on an
uncached locale, the awaiting caller observes only the timeout failure (the
race grants at most one observed outcome per fetch), but the late successful
response still runs to completion and applies its side effects: the fetched
ResourceSet is assigned to the active translations and written to the memory
cache — `Promise.race` does not cancel the losing operation. -/
theorem timeout_late_response_effects (fetchRes : String → Option JObj)
    (st : I18nState) (lang : String) (r : JObj) (netDelay timeoutMs : Nat)
    (h1 : mget st.cache lang = none) (h2 : fetchRes lang = some r)
    (h3 : timeoutMs ≤ netDelay) :
    timedLoadObserved fetchRes st lang netDelay timeoutMs = false ∧
    (timedLoadFinalState fetchRes st lang).translations = r ∧
    mget (timedLoadFinalState fetchRes st lang).cache lang = some r := by
  refine ⟨?_, ?_, ?_⟩
  · unfold timedLoadObserved
    simp [h1, Nat.not_lt.mpr h3]
  · unfold timedLoadFinalState loadTranslations loadTranslationsAux
    simp [h1, h2]
  · unfold timedLoadFinalState loadTranslations loadTranslationsAux
    simp [h1, h2, mget_mset_self]

/-- C2 witness: the amended timeout theorem at the concrete scenario of the
counterexample (empty state, fetch of `"fr"` arriving at 5000 ms against a
3000 ms timeout). -/
theorem timeout_late_response_effects_witness :
    timedLoadObserved frFetch ⟨[], [], []⟩ "fr" 5000 3000 = false ∧
    (timedLoadFinalState frFetch ⟨[], [], []⟩ "fr").translations = demoFr ∧
    mget (timedLoadFinalState frFetch ⟨[], [], []⟩ "fr").cache "fr"
        = some demoFr :=
  timeout_late_response_effects frFetch ⟨[], [], []⟩ "fr" demoFr 5000 3000
    rfl rfl (by decide)

/-- One protocol step keeps at most one in-flight record per locale: a
request either finds the existing record (and adds nothing) or creates the
sole record; a settle only removes records. -/
theorem coordStep_pending (s : CoordState) (e : CoordEvent) (l : String)
    (h : pendingCount s l ≤ 1) : pendingCount (coordStep s e) l ≤ 1 := by
  cases e with
  | request lang =>
    simp only [coordStep]
    split
    · exact h
    · rename_i hfind
      unfold pendingCount
      by_cases hl : lang = l
      · subst hl
        have hnone : s.pending.find? (fun p => p.1 == lang) = none := by
          cases hf : s.pending.find? (fun p => p.1 == lang) with
          | none => rfl
          | some v => exact absurd (by simp [hf]) hfind
        have hnil : s.pending.filter (fun p => p.1 == lang) = [] :=
          List.filter_eq_nil_iff.mpr (List.find?_eq_none.mp hnone)
        simp [List.filter_cons, hnil]
      · have hb : (lang == l) = false := beq_eq_false_iff_ne.mpr hl
        simpa [List.filter_cons, hb] using h
  | settle lang =>
    simp only [coordStep, pendingCount]
    calc ((s.pending.filter (fun p => !(p.1 == lang))).filter
            (fun p => p.1 == l)).length
        ≤ (s.pending.filter (fun p => p.1 == l)).length :=
          ((List.filter_sublist s.pending).filter _).length_le
      _ ≤ 1 := h

/-- C5: deduplication of in-flight fetches by the `loadingPromises` protocol.
First conjunct — the invariant: after any event sequence, at most one
in-flight fetch handle is recorded per locale.  Remaining conjuncts — the
two-concurrent-requests scenario: two requests for the uncached locale
`"fr"` issue exactly one underlying fetch operation (the second request finds
and shares the first one's record), and when the operation settles the record
is removed — exactly once, by the single `finally` of the call that created
it — without issuing any further fetch, whether the outcome was success or
failure (the `finally` runs on both). -/
theorem loadingPromises_dedup :
    (∀ (es : List CoordEvent) (l : String),
        pendingCount (coordRun coordInit es) l ≤ 1) ∧
    fetchCount (coordRun coordInit [.request "fr", .request "fr"]) "fr"
        = 1 ∧
    pendingCount (coordRun coordInit [.request "fr", .request "fr"]) "fr"
        = 1 ∧
    fetchCount (coordRun coordInit
        [.request "fr", .request "fr", .settle "fr"]) "fr" = 1 ∧
    pendingCount (coordRun coordInit
        [.request "fr", .request "fr", .settle "fr"]) "fr" = 0 := by
  refine ⟨?_, by decide, by decide, by decide, by decide⟩
  intro es
  suffices h : ∀ s : CoordState, (∀ l, pendingCount s l ≤ 1) →
      ∀ l, pendingCount (coordRun s es) l ≤ 1 by
    exact h coordInit (fun l => by simp [pendingCount, coordInit])
  induction es with
  | nil => exact fun s hs => hs
  | cons e es ih =>
      exact fun s hs => ih (coordStep s e)
        (fun l => coordStep_pending s e l (hs l))

/-- C9: when the load inside `switchLanguage(L)` fails (fetch error or
timeout, modelled as every fetch failing, with nothing memory-cached), the
call settles with: the active translations unchanged, `currentLang` and the
persisted `userLangPreference` already set to `L`, and the call reporting
failure.  The action trace shows the ordering the claim states: the language
and preference writes precede the load attempt, and the loading indicator is
turned off afterwards (by the `finally`), as the last action. -/
theorem switchLanguage_load_failure (s : SwitchState) (lang : String)
    (now : Nat) (h1 : ¬ (lang = s.currentLang ∧ s.initDone = true))
    (h2 : s.st.cache = []) :
    (switchLanguage (fun _ => none) s lang now).1.st.translations
        = s.st.translations ∧
    (switchLanguage (fun _ => none) s lang now).1.currentLang = lang ∧
    (switchLanguage (fun _ => none) s lang now).1.userLangPreference
        = some lang ∧
    (switchLanguage (fun _ => none) s lang now).2.1 = false ∧
    (switchLanguage (fun _ => none) s lang now).2.2
        = [.setCurrentLang lang, .setUserPref lang, .indicator true,
           .loadAttempt lang, .indicator false] := by
  have h1' : ¬ (lang = s.currentLang ∧ s.initDone) := by
    simpa using h1
  have hload := loadTranslations_all_fail
    { s with currentLang := lang, userLangPreference := some lang }.st lang h2
  unfold switchLanguage
  rw [if_neg h1']
  simp [hload]

/-- C9 witness: the failure theorem at a concrete switch from `"en"` to
`"fr"` with every fetch failing. -/
theorem switchLanguage_load_failure_witness :
    (switchLanguage (fun _ => none) ⟨"en", true, none, demoState⟩ "fr"
        0).1.st.translations = demoState.translations ∧
    (switchLanguage (fun _ => none) ⟨"en", true, none, demoState⟩ "fr"
        0).1.currentLang = "fr" ∧
    (switchLanguage (fun _ => none) ⟨"en", true, none, demoState⟩ "fr"
        0).1.userLangPreference = some "fr" ∧
    (switchLanguage (fun _ => none) ⟨"en", true, none, demoState⟩ "fr"
        0).2.1 = false ∧
    (switchLanguage (fun _ => none) ⟨"en", true, none, demoState⟩ "fr"
        0).2.2 = [.setCurrentLang "fr", .setUserPref "fr", .indicator true,
           .loadAttempt "fr", .indicator false] :=
  switchLanguage_load_failure ⟨"en", true, none, demoState⟩ "fr" 0
    (by decide) rfl

/-- Brace-free characters pass through the template scan unchanged. -/
theorem scanTemplate_prefix (f : String → String) (l rest : List Char)
    (h : ∀ c ∈ l, c ≠ '{' ∧ c ≠ '}') :
    scanTemplate f (l ++ rest) none = l ++ scanTemplate f rest none := by
  induction l with
  | nil => rfl
  | cons c l ih =>
    have hc := h c (List.mem_cons_self c l)
    simp only [List.cons_append, scanTemplate, if_neg hc.1, List.append_eq]
    rw [ih (fun d hd => h d (List.mem_cons_of_mem c hd))]

/-- A brace-free, nonempty placeholder body followed by a closing brace is
replaced by the substitution of that body. -/
theorem scanTemplate_body (f : String → String) (nm rest : List Char)
    (h : ∀ c ∈ nm, c ≠ '{' ∧ c ≠ '}') :
    ∀ buf : List Char, buf.reverse ++ nm ≠ [] →
      scanTemplate f (nm ++ '}' :: rest) (some buf)
        = (f ⟨buf.reverse ++ nm⟩).data ++ scanTemplate f rest none := by
  induction nm with
  | nil =>
    intro buf hbuf
    have hb : buf ≠ [] := by simpa using hbuf
    simp [scanTemplate, hb]
  | cons c nm ih =>
    intro buf hbuf
    have hc := h c (List.mem_cons_self c nm)
    simp only [List.cons_append, scanTemplate, if_neg hc.2, if_neg hc.1,
      List.append_eq]
    rw [ih (fun d hd => h d (List.mem_cons_of_mem c hd)) (c :: buf) (by simp)]
    simp [List.reverse_cons, List.append_assoc]

/-- A placeholder whose body has no matching substitution key renders as the
empty string (never left literal): `data[key] || ''` yields `''` when the
key is absent. -/
theorem template_unmatched_placeholder (pre name post : String)
    (data : List (String × String))
    (hpre : ∀ c ∈ pre.data, c ≠ '{' ∧ c ≠ '}')
    (hname : ∀ c ∈ name.data, c ≠ '{' ∧ c ≠ '}')
    (hne : name ≠ "") (hmiss : mget data name = none) :
    template (pre ++ "\x7b" ++ name ++ "\x7d" ++ post) data
      = pre ++ template post data := by
  have hnd : name.data ≠ [] := fun hd => hne (String.ext hd)
  apply String.ext
  show scanTemplate (subst data) (pre ++ "\x7b" ++ name ++ "\x7d" ++ post).data none
      = (pre ++ template post data).data
  have hb1 : ("\x7b" : String).data = ['{'] := rfl
  have hb2 : ("\x7d" : String).data = ['}'] := rfl
  have hd : (pre ++ "\x7b" ++ name ++ "\x7d" ++ post).data
      = pre.data ++ ('{' :: (name.data ++ ('}' :: post.data))) := by
    simp [String.data_append, hb1, hb2]
  rw [hd, scanTemplate_prefix _ _ _ hpre]
  have hopen : scanTemplate (subst data)
        ('{' :: (name.data ++ ('}' :: post.data))) none
      = scanTemplate (subst data) (name.data ++ ('}' :: post.data))
        (some []) := by
    simp [scanTemplate]
  rw [hopen, scanTemplate_body _ _ _ hname [] (by simpa using hnd)]
  have hsub : subst data ⟨([] : List Char).reverse ++ name.data⟩ = "" := by
    show subst data name = ""
    simp [subst, hmiss]
  rw [hsub]
  simp [template, String.data_append]

/-- C7: translation lookup with substitutions.  First conjunct: on a resource
where `questionTemplate` is the template of the source's minimal set,
`t("questionTemplate", {username: "Ada"})` returns
`"Ada? Will you be my love?"`.  Second conjunct: for every template string
(split as brace-free text around one placeholder) and non-empty substitution
map, a placeholder whose body has no matching key renders as the empty
string, not left literal. -/
theorem template_substitution_claim :
    t [("questionTemplate", JVal.s "{username}? Will you be my love?")]
        "questionTemplate" [("username", "Ada")]
      = TResult.str "Ada? Will you be my love?" ∧
    ∀ (pre name post : String) (data : List (String × String)),
      (∀ c ∈ pre.data, c ≠ '{' ∧ c ≠ '}') →
      (∀ c ∈ name.data, c ≠ '{' ∧ c ≠ '}') →
      name ≠ "" → data ≠ [] → mget data name = none →
      template (pre ++ "\x7b" ++ name ++ "\x7d" ++ post) data
        = pre ++ template post data :=
  ⟨by decide,
   fun pre name post data hpre hname hne _ hmiss =>
     template_unmatched_placeholder pre name post data hpre hname hne hmiss⟩

/-- C7 witness: the second conjunct applied at `pre = "Hi "`,
`name = "username"`, `post = "!"`, `data = [("x", "y")]` — the unmatched
placeholder disappears. -/
theorem template_substitution_claim_witness :
    template ("Hi " ++ "\x7b" ++ "username" ++ "\x7d" ++ "!") [("x", "y")]
      = "Hi " ++ template "!" [("x", "y")] :=
  template_substitution_claim.2 "Hi " "username" "!" [("x", "y")]
    (by decide) (by decide) (by decide) (by decide) (by decide)

/-- C8 counterexample: `t` can throw.  On the embedded minimal ResourceSet,
whose `noTexts` key holds an array, a lookup with a non-empty substitution
map passes the array to `template`, which calls `.replace` on it — a
`TypeError`, not a returned string. -/
theorem t_throws_on_array :
    t minimalFallbackTranslations "noTexts" [("username", "Ada")]
      = TResult.err := by
  decide

/-- C8 amended: for every key and substitution map, `t` neither fails nor
throws provided the stored value of the key, when present, is a string: a
key absent from the active ResourceSet returns the key itself, and a key
stored as a string returns a string (the key itself when the stored string
is empty — JS falsiness — and a string result otherwise).  A key stored as
an array (or a non-zero number) with a non-empty substitution map throws a
`TypeError` instead, as the counterexample shows. -/
theorem t_total_on_strings (translations : JObj) (key : String)
    (data : List (String × String)) :
    (mget translations key = none → t translations key data
        = TResult.str key) ∧
    (∀ v, mget translations key = some (JVal.s v) →
        ∃ out, t translations key data = TResult.str out) := by
  constructor
  · intro h
    simp [t, h]
  · intro v h
    by_cases hv : v = ""
    · exact ⟨key, by simp [t, h, falsy, hv]⟩
    · have hb : (v == "") = false := beq_eq_false_iff_ne.mpr hv
      by_cases hd : data.isEmpty
      · exact ⟨v, by simp [t, h, falsy, hb, hd]⟩
      · exact ⟨template v data, by simp [t, h, falsy, hb, hd]⟩

/-- C8 witness: the amended totality theorem at the empty ResourceSet and key
`"hello"` — the key itself comes back. -/
theorem t_total_on_strings_witness :
    t [] "hello" [] = TResult.str "hello" :=
  (t_total_on_strings [] "hello" []).1 rfl

/-- C10 counterexample: a key stored as the empty string is a key present in
the active ResourceSet, yet `t` with the default empty substitution map
returns the key itself, not the stored translation verbatim — the source's
falsiness check `if (!translation)` treats `""` like a missing key. -/
theorem t_empty_translation_returns_key :
    t [("k", JVal.s "")] "k" [] = TResult.str "k" ∧
    TResult.str "k" ≠ TResult.str "" := by
  decide

/-- C10 amended: for every key present in the active ResourceSet with a
non-empty string value, `t(key)` with the default empty substitution map
returns the stored translation verbatim — `template` is not invoked, so any
placeholders remain literal. -/
theorem t_empty_data_verbatim (translations : JObj) (key v : String)
    (h1 : mget translations key = some (JVal.s v)) (h2 : v ≠ "") :
    t translations key [] = TResult.str v := by
  have hb : (v == "") = false := beq_eq_false_iff_ne.mpr h2
  simp [t, h1, falsy, hb]

/-- C10 witness: a stored translation containing a placeholder is returned
literally by a substitution-free lookup. -/
theorem t_empty_data_verbatim_witness :
    t [("k", JVal.s "{name} x")] "k" [] = TResult.str "{name} x" :=
  t_empty_data_verbatim [("k", JVal.s "{name} x")] "k" "{name} x"
    rfl (by decide)
